import Mathlib

/-!
# Verification of rustix socket-address encoding/decoding

A shallow embedding of `src/net/socket_address.rs`, `src/net/socket_addr_any.rs`
and `src/backend/libc/net/msghdr.rs`. Raw OS memory is modelled as `List Nat`
of byte values; raw pointers handed to callbacks become the byte list itself
together with an explicit length. Components of the repository that are only
declared or called from these files (the libc layout constants, the
family-specific encoders/decoders of the backend, and the ancillary-buffer
operations) are modelled from the specification, as marked on each definition.
-/

set_option maxRecDepth 4096

namespace Rustix

/-! ## Byte-order helpers

Multi-byte integer fields. The platform is modelled as little-endian Linux;
ports and flow labels are stored big-endian (network order) on the wire,
`sa_family_t`, `sin6_scope_id` and the xdp/netlink fields native (little)
endian, as the spec's §4.1 describes. -/

/-- Two big-endian (network-order) bytes of a 16-bit value. -/
def u16be (n : Nat) : List Nat := [n / 256 % 256, n % 256]

/-- Two little-endian (native-order) bytes of a 16-bit value. -/
def u16le (n : Nat) : List Nat := [n % 256, n / 256 % 256]

/-- Four big-endian bytes of a 32-bit value. -/
def u32be (n : Nat) : List Nat :=
  [n / 16777216 % 256, n / 65536 % 256, n / 256 % 256, n % 256]

/-- Four little-endian bytes of a 32-bit value. -/
def u32le (n : Nat) : List Nat :=
  [n % 256, n / 256 % 256, n / 65536 % 256, n / 16777216 % 256]

/-- Reassemble a 16-bit value from two big-endian bytes. -/
def be16 (b0 b1 : Nat) : Nat := b0 * 256 + b1

/-- Reassemble a 16-bit value from two little-endian bytes. -/
def le16 (b0 b1 : Nat) : Nat := b1 * 256 + b0

/-- Reassemble a 32-bit value from four big-endian bytes. -/
def be32 (b0 b1 b2 b3 : Nat) : Nat :=
  b0 * 16777216 + b1 * 65536 + b2 * 256 + b3

/-- Reassemble a 32-bit value from four little-endian bytes. -/
def le32 (b0 b1 b2 b3 : Nat) : Nat :=
  b3 * 16777216 + b2 * 65536 + b1 * 256 + b0

/-! ## Platform layout constants

Modelled from the spec: `size_of` of the C `sockaddr_*` types of the libc
backend (`crate::backend::c`), which is not under `src/`; values are the
Linux ones the spec's §6 calls platform-defined constants. -/

/-- Value of `size_of::<c::sa_family_t>()` (the family discriminant, a 16-bit tag). -/
def sizeof_sa_family_t : Nat := 2

/-- Value of `size_of::<c::sockaddr_in>()`. -/
def sizeof_sockaddr_in : Nat := 16

/-- Value of `size_of::<c::sockaddr_in6>()`. -/
def sizeof_sockaddr_in6 : Nat := 28

/-- Value of `size_of::<c::sockaddr_un>()`: 2-byte family tag plus 108 path bytes. -/
def sizeof_sockaddr_un : Nat := 110

/-- Capacity of `sun_path` in `c::sockaddr_un`. -/
def sun_path_len : Nat := 108

/-- Value of `size_of::<c::sockaddr_xdp>()`. -/
def sizeof_sockaddr_xdp : Nat := 16

/-- Value of `size_of::<c::sockaddr_nl>()`. -/
def sizeof_sockaddr_nl : Nat := 12

/-- Value of `size_of::<c::sockaddr_storage>()`: the maximal untyped storage buffer. -/
def sizeof_sockaddr_storage : Nat := 128

/-- Modelled from the spec: `AddressFamily`, the newtype over the platform's
address-family discriminant used by `SocketAddrAny::address_family`; the
constants carry the Linux `AF_*` values. -/
structure AddressFamily where
  raw : Nat
deriving DecidableEq

/-- Constant `AddressFamily::UNIX` (`AF_UNIX`). -/
def AddressFamily.UNIX : AddressFamily := ⟨1⟩

/-- Constant `AddressFamily::INET` (`AF_INET`). -/
def AddressFamily.INET : AddressFamily := ⟨2⟩

/-- Constant `AddressFamily::INET6` (`AF_INET6`). -/
def AddressFamily.INET6 : AddressFamily := ⟨10⟩

/-- Constant `AddressFamily::NETLINK` (`AF_NETLINK`). -/
def AddressFamily.NETLINK : AddressFamily := ⟨16⟩

/-- Constant `AddressFamily::XDP` (`AF_XDP`). -/
def AddressFamily.XDP : AddressFamily := ⟨44⟩

/-! ## Typed address variants

Modelled from the spec (§3, "Typed address variants"): the concrete address
types are declared outside `src/`; only their `SocketAddress` impls are in
`src/net/socket_address.rs`. -/

/-- An IPv4 socket address: 4-byte network address plus 16-bit port. -/
structure SocketAddrV4 where
  ip : List Nat
  port : Nat
deriving DecidableEq

/-- An IPv6 socket address: 16-byte network address, 16-bit port, 32-bit
flow label and 32-bit scope id. -/
structure SocketAddrV6 where
  ip : List Nat
  port : Nat
  flowinfo : Nat
  scope_id : Nat
deriving DecidableEq

/-- A Unix-domain socket address: a byte sequence (filesystem path or
abstract name, which may contain embedded zero bytes) with an explicit
length, at most `sun_path_len` bytes. -/
structure SocketAddrUnix where
  path : List Nat
deriving DecidableEq

/-- An `AF_XDP` socket address (`struct sockaddr_xdp`). -/
structure SocketAddrXdp where
  sxdp_flags : Nat
  sxdp_ifindex : Nat
  sxdp_queue_id : Nat
  sxdp_shared_umem_fd : Nat
deriving DecidableEq

/-- An `AF_NETLINK` socket address (`struct sockaddr_nl`). -/
structure SocketAddrNetlink where
  pid : Nat
  groups : Nat
deriving DecidableEq

/-- Type `std::net::SocketAddr`: the two-variant IP-only enum. -/
inductive SocketAddr where
  | V4 : SocketAddrV4 → SocketAddr
  | V6 : SocketAddrV6 → SocketAddr
deriving DecidableEq

/-- Enum `SocketAddrAny` (`src/net/socket_addr_any.rs` lines 32-46): `struct
sockaddr_storage` as an enum, with all Linux variants enabled. Equality is
structural over the variant and its fields, as derived in the source. -/
inductive SocketAddrAny where
  | V4 : SocketAddrV4 → SocketAddrAny
  | V6 : SocketAddrV6 → SocketAddrAny
  | Unix : SocketAddrUnix → SocketAddrAny
  | Xdp : SocketAddrXdp → SocketAddrAny
  | Netlink : SocketAddrNetlink → SocketAddrAny
deriving DecidableEq

/-! ## Family-specific encoders

Modelled from the spec (§4.1): `encode_sockaddr_v4`/`encode_sockaddr_v6`
live in the backend's `write_sockaddr` module, outside `src/`; layout per
the Linux C structs named by the spec's data model. -/

/-- Modelled from the spec: `encode_sockaddr_v4`, producing the
`c::sockaddr_in` bytes: family tag, network-order port, address octets,
8 bytes of zero padding (`sin_zero`). -/
def encode_sockaddr_v4 (a : SocketAddrV4) : List Nat :=
  u16le AddressFamily.INET.raw ++ u16be a.port ++ a.ip ++ List.replicate 8 0

/-- Modelled from the spec: `encode_sockaddr_v6`, producing the
`c::sockaddr_in6` bytes: family tag, network-order port and flow label,
16 address octets, native-order scope id. -/
def encode_sockaddr_v6 (a : SocketAddrV6) : List Nat :=
  u16le AddressFamily.INET6.raw ++ u16be a.port ++ u32be a.flowinfo
    ++ a.ip ++ u32le a.scope_id

/-- Modelled from the spec: the `unix: c::sockaddr_un` field that
`SocketAddrUnix` stores internally (`self.unix` in
`src/net/socket_address.rs` lines 88, 93): family tag followed by the path
bytes, zero-padded to the full `sun_path` capacity. -/
def SocketAddrUnix.unix (a : SocketAddrUnix) : List Nat :=
  u16le AddressFamily.UNIX.raw ++ a.path
    ++ List.replicate (sun_path_len - a.path.length) 0

/-- Modelled from the spec: `SocketAddrUnix::addr_len()`, the stored exact
address length — the family tag plus the significant path bytes
(`src/net/socket_address.rs` line 94 calls it; the spec's §4.2 explains it
preserves exact length semantics). -/
def SocketAddrUnix.addr_len (a : SocketAddrUnix) : Nat :=
  sizeof_sa_family_t + a.path.length

/-- Modelled from the spec: the `c::sockaddr_xdp` encoder (flags, interface
index, queue id, shared umem fd, all native order). -/
def encode_sockaddr_xdp (a : SocketAddrXdp) : List Nat :=
  u16le AddressFamily.XDP.raw ++ u16le a.sxdp_flags ++ u32le a.sxdp_ifindex
    ++ u32le a.sxdp_queue_id ++ u32le a.sxdp_shared_umem_fd

/-- Modelled from the spec: the `c::sockaddr_nl` encoder (2 bytes of
`nl_pad`, then pid and groups in native order). -/
def encode_sockaddr_nl (a : SocketAddrNetlink) : List Nat :=
  u16le AddressFamily.NETLINK.raw ++ [0, 0] ++ u32le a.pid ++ u32le a.groups

/-! ## The `SocketAddress` trait (`src/net/socket_address.rs`)

The raw-pointer-and-length view handed to a callback is modelled as the
byte list of the C layout together with the explicit length; the callback
receives both, exactly as the Rust closure receives `(*const sockaddr,
socklen_t)`. -/

/-- The default body of `SocketAddress::with_sockaddr` (lines 31-36): pass
the callback a pointer to a stack copy holding `encode()`'s result, and
`size_of::<Self::CSockAddr>()`, returning the callback's result. -/
def default_with_sockaddr {R : Type} (encoded : List Nat) (csize : Nat)
    (f : List Nat → Nat → R) : R :=
  f encoded csize

/-- Impl `<SocketAddrV4 as SocketAddress>::encode` (line 70-72). -/
def SocketAddrV4.encode (a : SocketAddrV4) : List Nat :=
  encode_sockaddr_v4 a

/-- Type `SocketAddrV4` uses the trait's default `with_sockaddr`. -/
def SocketAddrV4.with_sockaddr {R : Type} (a : SocketAddrV4)
    (f : List Nat → Nat → R) : R :=
  default_with_sockaddr a.encode sizeof_sockaddr_in f

/-- Impl `<SocketAddrV6 as SocketAddress>::encode` (line 78-80). -/
def SocketAddrV6.encode (a : SocketAddrV6) : List Nat :=
  encode_sockaddr_v6 a

/-- Type `SocketAddrV6` uses the trait's default `with_sockaddr`. -/
def SocketAddrV6.with_sockaddr {R : Type} (a : SocketAddrV6)
    (f : List Nat → Nat → R) : R :=
  default_with_sockaddr a.encode sizeof_sockaddr_in6 f

/-- Modelled from the spec: `SocketAddrXdp`'s trait impl is outside `src/`;
per §4.2 it uses the default strategy (it does not store its C layout). -/
def SocketAddrXdp.encode (a : SocketAddrXdp) : List Nat :=
  encode_sockaddr_xdp a

/-- Modelled from the spec: `SocketAddrXdp` uses the default `with_sockaddr`. -/
def SocketAddrXdp.with_sockaddr {R : Type} (a : SocketAddrXdp)
    (f : List Nat → Nat → R) : R :=
  default_with_sockaddr a.encode sizeof_sockaddr_xdp f

/-- Modelled from the spec: `SocketAddrNetlink`'s trait impl is outside
`src/`; per §4.2 it uses the default strategy. -/
def SocketAddrNetlink.encode (a : SocketAddrNetlink) : List Nat :=
  encode_sockaddr_nl a

/-- Modelled from the spec: `SocketAddrNetlink` uses the default
`with_sockaddr`. -/
def SocketAddrNetlink.with_sockaddr {R : Type} (a : SocketAddrNetlink)
    (f : List Nat → Nat → R) : R :=
  default_with_sockaddr a.encode sizeof_sockaddr_nl f

/-- Impl `<SocketAddrUnix as SocketAddress>::encode` (lines 87-89): returns the
internally stored `sockaddr_un`. -/
def SocketAddrUnix.encode (a : SocketAddrUnix) : List Nat :=
  a.unix

/-- Impl `<SocketAddrUnix as SocketAddress>::with_sockaddr` (lines 91-96):
passes a pointer directly to the stored `self.unix` together with the exact
`self.addr_len()` — no transient copy, overriding the default. -/
def SocketAddrUnix.with_sockaddr {R : Type} (a : SocketAddrUnix)
    (f : List Nat → Nat → R) : R :=
  f a.unix a.addr_len

/-- Model of `copy_nonoverlapping(src, dst, count)` on byte buffers: the first
`count` bytes of `dst` are replaced by the first `count` bytes of `src`. -/
def copy_nonoverlapping (src dst : List Nat) (count : Nat) : List Nat :=
  src.take count ++ dst.drop count

/-- Impl `<SocketAddr as SocketAddress>::encode` (lines 42-57): zero the
`sockaddr_storage`, then `core::ptr::write` the variant's C struct (its
`size_of` bytes) at the start. -/
def SocketAddr.encode (a : SocketAddr) : List Nat :=
  match a with
  | .V4 v4 =>
    copy_nonoverlapping (encode_sockaddr_v4 v4)
      (List.replicate sizeof_sockaddr_storage 0) sizeof_sockaddr_in
  | .V6 v6 =>
    copy_nonoverlapping (encode_sockaddr_v6 v6)
      (List.replicate sizeof_sockaddr_storage 0) sizeof_sockaddr_in6

/-- Impl `<SocketAddr as SocketAddress>::with_sockaddr` (lines 59-64): dispatch
to the variant's own impl. -/
def SocketAddr.with_sockaddr {R : Type} (a : SocketAddr)
    (f : List Nat → Nat → R) : R :=
  match a with
  | .V4 v4 => v4.with_sockaddr f
  | .V6 v6 => v6.with_sockaddr f

/-! ## `SocketAddrAny` operations (`src/net/socket_addr_any.rs`) -/

/-- Method `SocketAddrAny::address_family` (lines 83-94). -/
def SocketAddrAny.address_family (a : SocketAddrAny) : AddressFamily :=
  match a with
  | .V4 _ => AddressFamily.INET
  | .V6 _ => AddressFamily.INET6
  | .Unix _ => AddressFamily.UNIX
  | .Xdp _ => AddressFamily.XDP
  | .Netlink _ => AddressFamily.NETLINK

/-- Impl `<SocketAddrAny as SocketAddress>::with_sockaddr` (lines 152-166):
dispatch to the variant's own impl. -/
def SocketAddrAny.with_sockaddr {R : Type} (a : SocketAddrAny)
    (f : List Nat → Nat → R) : R :=
  match a with
  | .V4 v => v.with_sockaddr f
  | .V6 v => v.with_sockaddr f
  | .Unix u => u.with_sockaddr f
  | .Xdp x => x.with_sockaddr f
  | .Netlink n => n.with_sockaddr f

/-- Method `SocketAddrAny::write` (lines 104-111): within `with_sockaddr`, copy
`len` bytes of the raw view into `storage` and return `len`. The mutated
storage is returned alongside the byte count. -/
def SocketAddrAny.write (a : SocketAddrAny) (storage : List Nat) :
    List Nat × Nat :=
  a.with_sockaddr fun addr len => (copy_nonoverlapping addr storage len, len)

/-- The raw-view bytes `with_sockaddr` passes to its callback. -/
def SocketAddrAny.raw_view (a : SocketAddrAny) : List Nat :=
  a.with_sockaddr fun addr _ => addr

/-- The length `with_sockaddr` passes to its callback. -/
def SocketAddrAny.layoutLen (a : SocketAddrAny) : Nat :=
  a.with_sockaddr fun _ len => len

/-- Impl `<SocketAddrAny as SocketAddress>::encode` (lines 144-150): zero a
`sockaddr_storage` and `write` into it. -/
def SocketAddrAny.encode (a : SocketAddrAny) : List Nat :=
  (a.write (List.replicate sizeof_sockaddr_storage 0)).1

/-! ## The untyped-storage reader

Modelled from the spec (§4.3): `backend::net::read_sockaddr::read_sockaddr`
is outside `src/`; `SocketAddrAny::read` (lines 120-122) forwards to it. -/

/-- The decode-failure taxonomy of the spec's §7. -/
inductive DecodeError where
  | TooShort
  | UnsupportedFamily
  | PathTooLong
deriving DecidableEq

/-- Modelled from the spec: `read_sockaddr(storage, len)` — inspect the
family discriminant in the first bytes, dispatch to the matching family
decoder, failing with `TooShort` when `len` is below the discriminant's
minimum layout size and with `UnsupportedFamily` on an unknown tag. For
Unix-domain addresses only the `len - 2` significant path bytes, capped at
the `sun_path` capacity, are copied out; the minimum Unix layout is the
bare family tag (a zero-length path is the valid unnamed address). -/
def read_sockaddr (storage : List Nat) (len : Nat) :
    Except DecodeError SocketAddrAny :=
  if len < sizeof_sa_family_t then .error .TooShort
  else
    let fam := le16 (storage.getD 0 0) (storage.getD 1 0)
    if fam = AddressFamily.INET.raw then
      if len < sizeof_sockaddr_in then .error .TooShort
      else .ok (.V4
        { ip := [storage.getD 4 0, storage.getD 5 0,
                 storage.getD 6 0, storage.getD 7 0]
          port := be16 (storage.getD 2 0) (storage.getD 3 0) })
    else if fam = AddressFamily.INET6.raw then
      if len < sizeof_sockaddr_in6 then .error .TooShort
      else .ok (.V6
        { ip := (storage.drop 8).take 16
          port := be16 (storage.getD 2 0) (storage.getD 3 0)
          flowinfo := be32 (storage.getD 4 0) (storage.getD 5 0)
            (storage.getD 6 0) (storage.getD 7 0)
          scope_id := le32 (storage.getD 24 0) (storage.getD 25 0)
            (storage.getD 26 0) (storage.getD 27 0) })
    else if fam = AddressFamily.UNIX.raw then
      .ok (.Unix
        { path := (storage.drop 2).take (min (len - 2) sun_path_len) })
    else if fam = AddressFamily.XDP.raw then
      if len < sizeof_sockaddr_xdp then .error .TooShort
      else .ok (.Xdp
        { sxdp_flags := le16 (storage.getD 2 0) (storage.getD 3 0)
          sxdp_ifindex := le32 (storage.getD 4 0) (storage.getD 5 0)
            (storage.getD 6 0) (storage.getD 7 0)
          sxdp_queue_id := le32 (storage.getD 8 0) (storage.getD 9 0)
            (storage.getD 10 0) (storage.getD 11 0)
          sxdp_shared_umem_fd := le32 (storage.getD 12 0) (storage.getD 13 0)
            (storage.getD 14 0) (storage.getD 15 0) })
    else if fam = AddressFamily.NETLINK.raw then
      if len < sizeof_sockaddr_nl then .error .TooShort
      else .ok (.Netlink
        { pid := le32 (storage.getD 4 0) (storage.getD 5 0)
            (storage.getD 6 0) (storage.getD 7 0)
          groups := le32 (storage.getD 8 0) (storage.getD 9 0)
            (storage.getD 10 0) (storage.getD 11 0) })
    else .error .UnsupportedFamily

/-- Method `SocketAddrAny::read` (lines 120-122): forwards to the backend's
`read_sockaddr`. -/
def SocketAddrAny.read (storage : List Nat) (len : Nat) :
    Except DecodeError SocketAddrAny :=
  read_sockaddr storage len

/-! ## Validity

The internal invariants the public constructors maintain (spec §4.4: no
variant can be constructed with an invalid internal state): field widths of
the C layout, and the platform path-length maximum for Unix addresses. -/

/-- Field invariants of an IPv4 address: 4 octets and a 16-bit port. -/
def SocketAddrV4.Valid (a : SocketAddrV4) : Prop :=
  a.ip.length = 4 ∧ (∀ b ∈ a.ip, b < 256) ∧ a.port < 65536

/-- Field invariants of an IPv6 address. -/
def SocketAddrV6.Valid (a : SocketAddrV6) : Prop :=
  a.ip.length = 16 ∧ (∀ b ∈ a.ip, b < 256) ∧ a.port < 65536
    ∧ a.flowinfo < 4294967296 ∧ a.scope_id < 4294967296

/-- Field invariants of a Unix-domain address: byte-valued path of at most
`sun_path_len` bytes. -/
def SocketAddrUnix.Valid (a : SocketAddrUnix) : Prop :=
  a.path.length ≤ sun_path_len ∧ ∀ b ∈ a.path, b < 256

/-- Field invariants of an XDP address. -/
def SocketAddrXdp.Valid (a : SocketAddrXdp) : Prop :=
  a.sxdp_flags < 65536 ∧ a.sxdp_ifindex < 4294967296
    ∧ a.sxdp_queue_id < 4294967296 ∧ a.sxdp_shared_umem_fd < 4294967296

/-- Field invariants of a netlink address. -/
def SocketAddrNetlink.Valid (a : SocketAddrNetlink) : Prop :=
  a.pid < 4294967296 ∧ a.groups < 4294967296

/-- A `SocketAddrAny` all of whose fields satisfy their variant's
invariants. -/
def SocketAddrAny.Valid (a : SocketAddrAny) : Prop :=
  match a with
  | .V4 v => v.Valid
  | .V6 v => v.Valid
  | .Unix u => u.Valid
  | .Xdp x => x.Valid
  | .Netlink n => n.Valid

instance (a : SocketAddrV4) : Decidable a.Valid := by
  unfold SocketAddrV4.Valid; infer_instance

instance (a : SocketAddrV6) : Decidable a.Valid := by
  unfold SocketAddrV6.Valid; infer_instance

instance (a : SocketAddrUnix) : Decidable a.Valid := by
  unfold SocketAddrUnix.Valid; infer_instance

instance (a : SocketAddrXdp) : Decidable a.Valid := by
  unfold SocketAddrXdp.Valid; infer_instance

instance (a : SocketAddrNetlink) : Decidable a.Valid := by
  unfold SocketAddrNetlink.Valid; infer_instance

instance (a : SocketAddrAny) : Decidable a.Valid := by
  unfold SocketAddrAny.Valid
  match a with
  | .V4 v => infer_instance
  | .V6 v => infer_instance
  | .Unix u => infer_instance
  | .Xdp x => infer_instance
  | .Netlink n => infer_instance

/-! ## Message headers (`src/backend/libc/net/msghdr.rs`)

The `c::msghdr` struct is modelled by its length fields (the pointer fields
carry no information in the embedding); the receive ancillary buffer, whose
operations live outside `src/`, is modelled from the spec by its capacity
and its read/length cursor state. The callback taking `&mut msghdr` becomes
a function returning the final header state next to its result. -/

/-- Modelled from the spec: `RecvAncillaryBuffer`, a caller-owned bounded
control-message buffer with a capacity and a read/length cursor pair. -/
structure RecvAncillaryBuffer where
  capacity : Nat
  read : Nat
  length : Nat
deriving DecidableEq

/-- Modelled from the spec: `RecvAncillaryBuffer::clear`, dropping any
buffered messages — both cursors return to zero; capacity is unchanged. -/
def RecvAncillaryBuffer.clear (b : RecvAncillaryBuffer) :
    RecvAncillaryBuffer :=
  { b with read := 0, length := 0 }

/-- Modelled from the spec: `RecvAncillaryBuffer::control_len`, the
capacity made available to the kernel as `msg_controllen`. -/
def RecvAncillaryBuffer.control_len (b : RecvAncillaryBuffer) : Nat :=
  b.capacity

/-- Modelled from the spec: `RecvAncillaryBuffer::set_control_len`,
recording how many control bytes the kernel filled in. -/
def RecvAncillaryBuffer.set_control_len (b : RecvAncillaryBuffer)
    (n : Nat) : RecvAncillaryBuffer :=
  { b with read := 0, length := n }

/-- The length fields of `c::msghdr`. -/
structure Msghdr where
  msg_namelen : Nat
  msg_iovlen : Nat
  msg_controllen : Nat
deriving DecidableEq

/-- Model of `zero_msghdr` (`msghdr.rs` lines 86-91): the zero-initialized
header. -/
def zero_msghdr : Msghdr :=
  { msg_namelen := 0, msg_iovlen := 0, msg_controllen := 0 }

/-- The header `with_recv_msghdr` builds before invoking its callback
(`msghdr.rs` lines 23-33): name length is the full `sockaddr_storage`,
control length is the (cleared) ancillary buffer's `control_len()`. -/
def recv_msghdr_init (iovlen : Nat) (control : RecvAncillaryBuffer) :
    Msghdr :=
  { zero_msghdr with
    msg_namelen := sizeof_sockaddr_storage
    msg_iovlen := iovlen
    msg_controllen := control.control_len }

/-- Model of `with_recv_msghdr` (`msghdr.rs` lines 15-45): clear the
ancillary buffer, build the receive header, run the callback, and reset the
buffer's control length from the final header only on success, returning
the callback's result. (`msg_controllen.try_into()` is the identity here,
all lengths being `Nat`.) -/
def with_recv_msghdr {E R : Type} (iovlen : Nat)
    (control : RecvAncillaryBuffer)
    (f : Msghdr → Msghdr × Except E R) :
    RecvAncillaryBuffer × Except E R :=
  let control1 := control.clear
  let msghdr := recv_msghdr_init iovlen control1
  let r := f msghdr
  match r.2 with
  | .ok _ => (control1.set_control_len r.1.msg_controllen, r.2)
  | .error _ => (control1, r.2)

/-! ## Helper lemmas -/

/-- Copying `n` bytes from a source of length exactly `n` prepends the
whole source to the preserved tail of the destination. -/
theorem copy_full (src dst : List Nat) (n : Nat) (h : src.length = n) :
    copy_nonoverlapping src dst n = src ++ dst.drop n := by
  unfold copy_nonoverlapping
  rw [← h, List.take_length]

/-- Reading inside the first `n` elements is unaffected by truncation to
`n` elements. -/
theorem getD_take_of_lt (l : List Nat) (n i : Nat) (h : i < n) :
    (l.take n).getD i 0 = l.getD i 0 := by
  simp [List.getD_eq_getElem?_getD, List.getElem?_take, h]

/-- Every position of an all-zero buffer reads as zero. -/
theorem getD_replicate_zero (n i : Nat) :
    (List.replicate n (0 : Nat)).getD i 0 = 0 := by
  induction n generalizing i with
  | zero => simp [List.getD]
  | succ m ih =>
    cases i with
    | zero => simp [List.replicate]
    | succ j => simp only [List.replicate, List.getD_cons_succ]; exact ih j

/-- A length-4 byte list is literally its four elements. -/
theorem list_length_four_exists (l : List Nat) (h : l.length = 4) :
    ∃ a0 a1 a2 a3, l = [a0, a1, a2, a3] := by
  rcases l with _ | ⟨a0, l⟩
  · simp only [List.length_nil] at h; omega
  rcases l with _ | ⟨a1, l⟩
  · simp only [List.length_cons, List.length_nil] at h; omega
  rcases l with _ | ⟨a2, l⟩
  · simp only [List.length_cons, List.length_nil] at h; omega
  rcases l with _ | ⟨a3, l⟩
  · simp only [List.length_cons, List.length_nil] at h; omega
  rcases l with _ | ⟨a4, l⟩
  · exact ⟨a0, a1, a2, a3, rfl⟩
  · simp only [List.length_cons] at h; omega

/-- A length-16 byte list is literally its sixteen elements. -/
theorem list_length_sixteen_exists (l : List Nat) (h : l.length = 16) :
    ∃ a0 a1 a2 a3 a4 a5 a6 a7 a8 a9 a10 a11 a12 a13 a14 a15,
      l = [a0, a1, a2, a3, a4, a5, a6, a7, a8, a9, a10, a11, a12, a13,
           a14, a15] := by
  rcases l with _ | ⟨a0, l⟩
  · simp only [List.length_nil] at h; omega
  rcases l with _ | ⟨a1, l⟩
  · simp only [List.length_cons, List.length_nil] at h; omega
  rcases l with _ | ⟨a2, l⟩
  · simp only [List.length_cons, List.length_nil] at h; omega
  rcases l with _ | ⟨a3, l⟩
  · simp only [List.length_cons, List.length_nil] at h; omega
  rcases l with _ | ⟨a4, l⟩
  · simp only [List.length_cons, List.length_nil] at h; omega
  rcases l with _ | ⟨a5, l⟩
  · simp only [List.length_cons, List.length_nil] at h; omega
  rcases l with _ | ⟨a6, l⟩
  · simp only [List.length_cons, List.length_nil] at h; omega
  rcases l with _ | ⟨a7, l⟩
  · simp only [List.length_cons, List.length_nil] at h; omega
  rcases l with _ | ⟨a8, l⟩
  · simp only [List.length_cons, List.length_nil] at h; omega
  rcases l with _ | ⟨a9, l⟩
  · simp only [List.length_cons, List.length_nil] at h; omega
  rcases l with _ | ⟨a10, l⟩
  · simp only [List.length_cons, List.length_nil] at h; omega
  rcases l with _ | ⟨a11, l⟩
  · simp only [List.length_cons, List.length_nil] at h; omega
  rcases l with _ | ⟨a12, l⟩
  · simp only [List.length_cons, List.length_nil] at h; omega
  rcases l with _ | ⟨a13, l⟩
  · simp only [List.length_cons, List.length_nil] at h; omega
  rcases l with _ | ⟨a14, l⟩
  · simp only [List.length_cons, List.length_nil] at h; omega
  rcases l with _ | ⟨a15, l⟩
  · simp only [List.length_cons, List.length_nil] at h; omega
  rcases l with _ | ⟨a16, l⟩
  · exact ⟨a0, a1, a2, a3, a4, a5, a6, a7, a8, a9, a10, a11, a12, a13,
      a14, a15, rfl⟩
  · simp only [List.length_cons] at h; omega

/-- Decoding an explicitly laid-out `sockaddr_in` buffer. -/
theorem read_sockaddr_v4_explicit (p1 p2 i0 i1 i2 i3 : Nat)
    (rest : List Nat) :
    read_sockaddr (2 :: 0 :: p1 :: p2 :: i0 :: i1 :: i2 :: i3 :: rest)
        sizeof_sockaddr_in
      = .ok (.V4 { ip := [i0, i1, i2, i3], port := be16 p1 p2 }) := rfl

/-- Decoding an explicitly laid-out `sockaddr_in6` buffer. -/
theorem read_sockaddr_v6_explicit
    (p1 p2 f1 f2 f3 f4 i0 i1 i2 i3 i4 i5 i6 i7 i8 i9 i10 i11 i12 i13 i14
      i15 s1 s2 s3 s4 : Nat) (rest : List Nat) :
    read_sockaddr (10 :: 0 :: p1 :: p2 :: f1 :: f2 :: f3 :: f4 :: i0 ::
        i1 :: i2 :: i3 :: i4 :: i5 :: i6 :: i7 :: i8 :: i9 :: i10 :: i11 ::
        i12 :: i13 :: i14 :: i15 :: s1 :: s2 :: s3 :: s4 :: rest)
        sizeof_sockaddr_in6
      = .ok (.V6 { ip := [i0, i1, i2, i3, i4, i5, i6, i7, i8, i9, i10, i11,
                          i12, i13, i14, i15]
                   port := be16 p1 p2
                   flowinfo := be32 f1 f2 f3 f4
                   scope_id := le32 s1 s2 s3 s4 }) := rfl

/-- Decoding an explicitly laid-out `sockaddr_xdp` buffer. -/
theorem read_sockaddr_xdp_explicit (g1 g2 x1 x2 x3 x4 q1 q2 q3 q4 u1 u2 u3
    u4 : Nat) (rest : List Nat) :
    read_sockaddr (44 :: 0 :: g1 :: g2 :: x1 :: x2 :: x3 :: x4 :: q1 ::
        q2 :: q3 :: q4 :: u1 :: u2 :: u3 :: u4 :: rest) sizeof_sockaddr_xdp
      = .ok (.Xdp { sxdp_flags := le16 g1 g2
                    sxdp_ifindex := le32 x1 x2 x3 x4
                    sxdp_queue_id := le32 q1 q2 q3 q4
                    sxdp_shared_umem_fd := le32 u1 u2 u3 u4 }) := rfl

/-- Decoding an explicitly laid-out `sockaddr_nl` buffer. -/
theorem read_sockaddr_nl_explicit (d1 d2 d3 d4 g1 g2 g3 g4 : Nat)
    (rest : List Nat) :
    read_sockaddr (16 :: 0 :: 0 :: 0 :: d1 :: d2 :: d3 :: d4 :: g1 :: g2 ::
        g3 :: g4 :: rest) sizeof_sockaddr_nl
      = .ok (.Netlink { pid := le32 d1 d2 d3 d4
                        groups := le32 g1 g2 g3 g4 }) := rfl

/-- Decoding an explicitly laid-out `sockaddr_un` buffer of exact length. -/
theorem read_sockaddr_unix_explicit (path rest : List Nat)
    (h : path.length ≤ sun_path_len) :
    read_sockaddr (1 :: 0 :: (path ++ rest)) (2 + path.length)
      = .ok (.Unix { path := path }) := by
  have hfam : le16 ((1 :: 0 :: (path ++ rest)).getD 0 0)
      ((1 :: 0 :: (path ++ rest)).getD 1 0) = 1 := rfl
  have hdrop : (1 :: 0 :: (path ++ rest)).drop 2 = path ++ rest := rfl
  have hmin : min (2 + path.length - 2) sun_path_len = path.length := by
    unfold sun_path_len at h ⊢; omega
  unfold read_sockaddr
  rw [if_neg (by unfold sizeof_sa_family_t; omega)]
  simp only [hfam, hdrop, hmin, AddressFamily.INET, AddressFamily.INET6,
    AddressFamily.UNIX, List.take_left]
  norm_num

/-- A bounded write into a zeroed maximal storage buffer fills it to full
capacity and leaves every byte past the written length zero. -/
theorem padded_write_spec (V : List Nat) (L : Nat) (hV : L ≤ V.length)
    (hL : L ≤ sizeof_sockaddr_storage) :
    (copy_nonoverlapping V (List.replicate sizeof_sockaddr_storage 0)
        L).length = sizeof_sockaddr_storage ∧
    ∀ i, L ≤ i →
      (copy_nonoverlapping V (List.replicate sizeof_sockaddr_storage 0)
          L).getD i 0 = 0 := by
  have hlen : (V.take L).length = L := by
    simp only [List.length_take]
    omega
  constructor
  · simp only [copy_nonoverlapping, List.length_append, hlen,
      List.length_drop, List.length_replicate]
    unfold sizeof_sockaddr_storage at hL ⊢
    omega
  · intro i hi
    unfold copy_nonoverlapping
    rw [List.getD_append_right _ _ _ _ (by omega), List.drop_replicate]
    exact getD_replicate_zero _ _

/-! ## Claim theorems -/

/-- C7: `SocketAddrAny::address_family` is a pure function of the variant
tag alone: `INET` for every `V4` value, `INET6` for every `V6` value,
`UNIX` for every `Unix` value, `XDP` for every `Xdp` value and `NETLINK`
for every `Netlink` value, regardless of the variant's field contents. -/
theorem address_family_of_variant :
    (∀ a, (SocketAddrAny.V4 a).address_family = AddressFamily.INET) ∧
    (∀ a, (SocketAddrAny.V6 a).address_family = AddressFamily.INET6) ∧
    (∀ a, (SocketAddrAny.Unix a).address_family = AddressFamily.UNIX) ∧
    (∀ a, (SocketAddrAny.Xdp a).address_family = AddressFamily.XDP) ∧
    (∀ a, (SocketAddrAny.Netlink a).address_family
      = AddressFamily.NETLINK) :=
  ⟨fun _ => rfl, fun _ => rfl, fun _ => rfl, fun _ => rfl, fun _ => rfl⟩

/-- C8: under `SocketAddrAny`'s structural equality, addresses of different
variants are never equal: `V4 a ≠ V6 b` and `V4 a ≠ Unix p` for all field
values `a`, `b`, `p`. -/
theorem cross_family_ne :
    (∀ (a : SocketAddrV4) (b : SocketAddrV6),
      SocketAddrAny.V4 a ≠ SocketAddrAny.V6 b) ∧
    (∀ (a : SocketAddrV4) (p : SocketAddrUnix),
      SocketAddrAny.V4 a ≠ SocketAddrAny.Unix p) :=
  ⟨fun _ _ h => SocketAddrAny.noConfusion h,
   fun _ _ h => SocketAddrAny.noConfusion h⟩

/-- C6: the near-duplicate `SocketAddress` impls for `SocketAddr` and
`SocketAddrAny` agree on their common variants: for every IPv4 or IPv6
address, both `encode` to the same `sockaddr_storage` bytes, and both
`with_sockaddr` views hand the callback the same layout bytes and the same
length. -/
theorem sockaddr_impls_agree :
    (∀ v, (SocketAddr.V4 v).encode = (SocketAddrAny.V4 v).encode) ∧
    (∀ v, (SocketAddr.V6 v).encode = (SocketAddrAny.V6 v).encode) ∧
    (∀ (R : Type) (v : SocketAddrV4) (f : List Nat → Nat → R),
      (SocketAddr.V4 v).with_sockaddr f
        = (SocketAddrAny.V4 v).with_sockaddr f) ∧
    (∀ (R : Type) (v : SocketAddrV6) (f : List Nat → Nat → R),
      (SocketAddr.V6 v).with_sockaddr f
        = (SocketAddrAny.V6 v).with_sockaddr f) :=
  ⟨fun _ => rfl, fun _ => rfl, fun _ _ _ => rfl, fun _ _ _ => rfl⟩

/-- C2: `SocketAddrAny::write` copies exactly `len` bytes of the raw view
into the destination storage (leaving the remainder of the destination in
place) and returns that same `len`, where `len` is the length supplied by
the raw view: the size of the variant's C layout for the fixed-size
families and the stored exact `addr_len()` for Unix-domain addresses. -/
theorem write_copies_layout_len :
    (∀ (a : SocketAddrAny) (storage : List Nat),
      a.write storage
        = (a.raw_view.take a.layoutLen ++ storage.drop a.layoutLen,
           a.layoutLen)) ∧
    (∀ v, (SocketAddrAny.V4 v).layoutLen = sizeof_sockaddr_in) ∧
    (∀ v, (SocketAddrAny.V6 v).layoutLen = sizeof_sockaddr_in6) ∧
    (∀ u, (SocketAddrAny.Unix u).layoutLen = u.addr_len) ∧
    (∀ x, (SocketAddrAny.Xdp x).layoutLen = sizeof_sockaddr_xdp) ∧
    (∀ n, (SocketAddrAny.Netlink n).layoutLen = sizeof_sockaddr_nl) := by
  refine ⟨fun a storage => ?_, fun _ => rfl, fun _ => rfl, fun _ => rfl,
    fun _ => rfl, fun _ => rfl⟩
  cases a <;> rfl

/-- C5: every address type left on the trait's default `with_sockaddr`
invokes the callback exactly once — the model's `with_sockaddr` IS one
application of the callback — with the transient copy produced by
`encode()` and the size of the associated C layout type, returning the
callback's result; the encoded copy's length equals that size on valid
addresses. `SocketAddrUnix` instead passes its internally stored
`sockaddr_un` itself (no transient `encode()` copy is interposed) together
with its exact `addr_len()`. -/
theorem with_sockaddr_contract :
    (∀ (R : Type) (a : SocketAddrV4) (f : List Nat → Nat → R),
      a.with_sockaddr f = f a.encode sizeof_sockaddr_in) ∧
    (∀ (R : Type) (a : SocketAddrV6) (f : List Nat → Nat → R),
      a.with_sockaddr f = f a.encode sizeof_sockaddr_in6) ∧
    (∀ (R : Type) (a : SocketAddrXdp) (f : List Nat → Nat → R),
      a.with_sockaddr f = f a.encode sizeof_sockaddr_xdp) ∧
    (∀ (R : Type) (a : SocketAddrNetlink) (f : List Nat → Nat → R),
      a.with_sockaddr f = f a.encode sizeof_sockaddr_nl) ∧
    (∀ a : SocketAddrV4, a.Valid →
      a.encode.length = sizeof_sockaddr_in) ∧
    (∀ a : SocketAddrV6, a.Valid →
      a.encode.length = sizeof_sockaddr_in6) ∧
    (∀ a : SocketAddrXdp, a.encode.length = sizeof_sockaddr_xdp) ∧
    (∀ a : SocketAddrNetlink, a.encode.length = sizeof_sockaddr_nl) ∧
    (∀ (R : Type) (a : SocketAddrUnix) (f : List Nat → Nat → R),
      a.with_sockaddr f = f a.unix a.addr_len) := by
  refine ⟨fun _ _ _ => rfl, fun _ _ _ => rfl, fun _ _ _ => rfl,
    fun _ _ _ => rfl, fun a h => ?_, fun a h => ?_, fun a => ?_,
    fun a => ?_, fun _ _ _ => rfl⟩
  · obtain ⟨h1, -, -⟩ := h
    simp only [SocketAddrV4.encode, encode_sockaddr_v4, u16le, u16be,
      List.length_append, List.length_cons, List.length_nil,
      List.length_replicate, h1, sizeof_sockaddr_in]
  · obtain ⟨h1, -, -, -, -⟩ := h
    simp only [SocketAddrV6.encode, encode_sockaddr_v6, u16le, u16be,
      u32be, u32le, List.length_append, List.length_cons, List.length_nil,
      h1, sizeof_sockaddr_in6]
  · rfl
  · rfl

/-- C5 witness: the contract evaluated at `127.0.0.1:8080`. -/
theorem with_sockaddr_contract_witness :
    (SocketAddrV4.mk [127, 0, 0, 1] 8080).Valid ∧
    (SocketAddrV4.mk [127, 0, 0, 1] 8080).encode.length
      = sizeof_sockaddr_in :=
  ⟨by decide,
   with_sockaddr_contract.2.2.2.2.1 (SocketAddrV4.mk [127, 0, 0, 1] 8080)
     (by decide)⟩

/-- C9: `with_recv_msghdr` first clears the receive ancillary control
buffer; it returns the callback's result unchanged, and it updates the
buffer's length from the resulting header's `msg_controllen` only when the
callback returns `Ok` — on `Err` the buffer remains in its cleared
state. -/
theorem with_recv_msghdr_spec (E R : Type) (iovlen : Nat)
    (control : RecvAncillaryBuffer)
    (f : Msghdr → Msghdr × Except E R) :
    (with_recv_msghdr iovlen control f).2
      = (f (recv_msghdr_init iovlen control.clear)).2 ∧
    (with_recv_msghdr iovlen control f).1
      = (match (f (recv_msghdr_init iovlen control.clear)).2 with
         | .ok _ => control.clear.set_control_len
             (f (recv_msghdr_init iovlen control.clear)).1.msg_controllen
         | .error _ => control.clear) := by
  unfold with_recv_msghdr
  cases hr : (f (recv_msghdr_init iovlen control.clear)).2 <;>
    simp [hr]

/-- C3: for each supported family, `SocketAddrAny::read` with a length one
byte less than that family's minimum layout size returns `TooShort` (for
Unix-domain addresses the minimum layout is the bare family tag, so the
statement is length-only). -/
theorem read_min_length_rejection :
    (∀ storage : List Nat,
      le16 (storage.getD 0 0) (storage.getD 1 0) = AddressFamily.INET.raw →
      SocketAddrAny.read storage (sizeof_sockaddr_in - 1)
        = .error .TooShort) ∧
    (∀ storage : List Nat,
      le16 (storage.getD 0 0) (storage.getD 1 0)
          = AddressFamily.INET6.raw →
      SocketAddrAny.read storage (sizeof_sockaddr_in6 - 1)
        = .error .TooShort) ∧
    (∀ storage : List Nat,
      SocketAddrAny.read storage (sizeof_sa_family_t - 1)
        = .error .TooShort) ∧
    (∀ storage : List Nat,
      le16 (storage.getD 0 0) (storage.getD 1 0) = AddressFamily.XDP.raw →
      SocketAddrAny.read storage (sizeof_sockaddr_xdp - 1)
        = .error .TooShort) ∧
    (∀ storage : List Nat,
      le16 (storage.getD 0 0) (storage.getD 1 0)
          = AddressFamily.NETLINK.raw →
      SocketAddrAny.read storage (sizeof_sockaddr_nl - 1)
        = .error .TooShort) := by
  refine ⟨fun storage h => ?_, fun storage h => ?_, fun storage => ?_,
    fun storage h => ?_, fun storage h => ?_⟩
  · simp only [SocketAddrAny.read, read_sockaddr, h]
    norm_num [sizeof_sa_family_t, sizeof_sockaddr_in, AddressFamily.INET]
  · simp only [SocketAddrAny.read, read_sockaddr, h]
    norm_num [sizeof_sa_family_t, sizeof_sockaddr_in, sizeof_sockaddr_in6,
      AddressFamily.INET, AddressFamily.INET6]
  · simp only [SocketAddrAny.read, read_sockaddr]
    norm_num [sizeof_sa_family_t]
  · simp only [SocketAddrAny.read, read_sockaddr, h]
    norm_num [sizeof_sa_family_t, sizeof_sockaddr_in, sizeof_sockaddr_xdp,
      AddressFamily.INET, AddressFamily.INET6, AddressFamily.UNIX,
      AddressFamily.XDP]
  · simp only [SocketAddrAny.read, read_sockaddr, h]
    norm_num [sizeof_sa_family_t, sizeof_sockaddr_in, sizeof_sockaddr_nl,
      sizeof_sockaddr_in6, sizeof_sockaddr_xdp, AddressFamily.INET,
      AddressFamily.INET6, AddressFamily.UNIX, AddressFamily.XDP,
      AddressFamily.NETLINK]

/-- C3 witness: the rejection at each family's minimum minus one, on
concrete buffers carrying each discriminant. -/
theorem read_min_length_rejection_witness :
    SocketAddrAny.read [2, 0] (sizeof_sockaddr_in - 1)
        = .error .TooShort ∧
    SocketAddrAny.read [10, 0] (sizeof_sockaddr_in6 - 1)
        = .error .TooShort ∧
    SocketAddrAny.read [1, 0] (sizeof_sa_family_t - 1)
        = .error .TooShort ∧
    SocketAddrAny.read [44, 0] (sizeof_sockaddr_xdp - 1)
        = .error .TooShort ∧
    SocketAddrAny.read [16, 0] (sizeof_sockaddr_nl - 1)
        = .error .TooShort :=
  ⟨read_min_length_rejection.1 [2, 0] (by decide),
   read_min_length_rejection.2.1 [10, 0] (by decide),
   read_min_length_rejection.2.2.1 [1, 0],
   read_min_length_rejection.2.2.2.1 [44, 0] (by decide),
   read_min_length_rejection.2.2.2.2 [16, 0] (by decide)⟩

/-- C4: when the leading family discriminant is not among the compiled-in
variants, `SocketAddrAny::read` returns the recoverable
`UnsupportedFamily` error value (the model's `read` is a total function
into `Except`, so no panic is possible); and `read` never inspects bytes
beyond the supplied length — truncating the storage to `len` bytes never
changes its result. -/
theorem read_unsupported_family :
    (∀ (storage : List Nat) (len : Nat),
      sizeof_sa_family_t ≤ len →
      le16 (storage.getD 0 0) (storage.getD 1 0) ≠ AddressFamily.INET.raw →
      le16 (storage.getD 0 0) (storage.getD 1 0)
        ≠ AddressFamily.INET6.raw →
      le16 (storage.getD 0 0) (storage.getD 1 0) ≠ AddressFamily.UNIX.raw →
      le16 (storage.getD 0 0) (storage.getD 1 0) ≠ AddressFamily.XDP.raw →
      le16 (storage.getD 0 0) (storage.getD 1 0)
        ≠ AddressFamily.NETLINK.raw →
      SocketAddrAny.read storage len = .error .UnsupportedFamily) ∧
    (∀ (storage : List Nat) (len : Nat),
      SocketAddrAny.read storage len
        = SocketAddrAny.read (storage.take len) len) := by
  constructor
  · intro storage len h1 h2 h3 h4 h5 h6
    simp only [SocketAddrAny.read, read_sockaddr]
    rw [if_neg (Nat.not_lt.mpr h1), if_neg h2, if_neg h3, if_neg h4,
      if_neg h5, if_neg h6]
  · intro s len
    by_cases hl : len < sizeof_sa_family_t
    · simp only [SocketAddrAny.read, read_sockaddr, if_pos hl]
    · have hl2 : 2 ≤ len := by
        unfold sizeof_sa_family_t at hl; omega
      have h0 : (s.take len).getD 0 0 = s.getD 0 0 :=
        getD_take_of_lt s len 0 (by omega)
      have h1 : (s.take len).getD 1 0 = s.getD 1 0 :=
        getD_take_of_lt s len 1 (by omega)
      simp only [SocketAddrAny.read, read_sockaddr, h0, h1, if_neg hl]
      by_cases hf4 : le16 (s.getD 0 0) (s.getD 1 0)
          = AddressFamily.INET.raw
      · simp only [if_pos hf4]
        by_cases hlen : len < sizeof_sockaddr_in
        · simp only [if_pos hlen]
        · have hlen16 : 16 ≤ len := by
            unfold sizeof_sockaddr_in at hlen; omega
          simp only [if_neg hlen, getD_take_of_lt s len 2 (by omega),
            getD_take_of_lt s len 3 (by omega),
            getD_take_of_lt s len 4 (by omega),
            getD_take_of_lt s len 5 (by omega),
            getD_take_of_lt s len 6 (by omega),
            getD_take_of_lt s len 7 (by omega)]
      · simp only [if_neg hf4]
        by_cases hf6 : le16 (s.getD 0 0) (s.getD 1 0)
            = AddressFamily.INET6.raw
        · simp only [if_pos hf6]
          by_cases hlen : len < sizeof_sockaddr_in6
          · simp only [if_pos hlen]
          · have hlen28 : 28 ≤ len := by
              unfold sizeof_sockaddr_in6 at hlen; omega
            have hip : ((s.take len).drop 8).take 16 = (s.drop 8).take 16 := by
              rw [List.drop_take, List.take_take]
              congr 1
              omega
            simp only [if_neg hlen, hip,
              getD_take_of_lt s len 2 (by omega),
              getD_take_of_lt s len 3 (by omega),
              getD_take_of_lt s len 4 (by omega),
              getD_take_of_lt s len 5 (by omega),
              getD_take_of_lt s len 6 (by omega),
              getD_take_of_lt s len 7 (by omega),
              getD_take_of_lt s len 24 (by omega),
              getD_take_of_lt s len 25 (by omega),
              getD_take_of_lt s len 26 (by omega),
              getD_take_of_lt s len 27 (by omega)]
        · simp only [if_neg hf6]
          by_cases hfu : le16 (s.getD 0 0) (s.getD 1 0)
              = AddressFamily.UNIX.raw
          · have hpath : ((s.take len).drop 2).take (min (len - 2)
                sun_path_len) = (s.drop 2).take (min (len - 2)
                sun_path_len) := by
              rw [List.drop_take, List.take_take]
              congr 1
              unfold sun_path_len
              omega
            simp only [if_pos hfu, hpath]
          · simp only [if_neg hfu]
            by_cases hfx : le16 (s.getD 0 0) (s.getD 1 0)
                = AddressFamily.XDP.raw
            · simp only [if_pos hfx]
              by_cases hlen : len < sizeof_sockaddr_xdp
              · simp only [if_pos hlen]
              · have hlen16 : 16 ≤ len := by
                  unfold sizeof_sockaddr_xdp at hlen; omega
                simp only [if_neg hlen,
                  getD_take_of_lt s len 2 (by omega),
                  getD_take_of_lt s len 3 (by omega),
                  getD_take_of_lt s len 4 (by omega),
                  getD_take_of_lt s len 5 (by omega),
                  getD_take_of_lt s len 6 (by omega),
                  getD_take_of_lt s len 7 (by omega),
                  getD_take_of_lt s len 8 (by omega),
                  getD_take_of_lt s len 9 (by omega),
                  getD_take_of_lt s len 10 (by omega),
                  getD_take_of_lt s len 11 (by omega),
                  getD_take_of_lt s len 12 (by omega),
                  getD_take_of_lt s len 13 (by omega),
                  getD_take_of_lt s len 14 (by omega),
                  getD_take_of_lt s len 15 (by omega)]
            · simp only [if_neg hfx]
              by_cases hfn : le16 (s.getD 0 0) (s.getD 1 0)
                  = AddressFamily.NETLINK.raw
              · simp only [if_pos hfn]
                by_cases hlen : len < sizeof_sockaddr_nl
                · simp only [if_pos hlen]
                · have hlen12 : 12 ≤ len := by
                    unfold sizeof_sockaddr_nl at hlen; omega
                  simp only [if_neg hlen,
                    getD_take_of_lt s len 4 (by omega),
                    getD_take_of_lt s len 5 (by omega),
                    getD_take_of_lt s len 6 (by omega),
                    getD_take_of_lt s len 7 (by omega),
                    getD_take_of_lt s len 8 (by omega),
                    getD_take_of_lt s len 9 (by omega),
                    getD_take_of_lt s len 10 (by omega),
                    getD_take_of_lt s len 11 (by omega)]
              · simp only [if_neg hfn]

/-- C4 witness: a buffer with the unknown discriminant 99 of sufficient
length decodes to `UnsupportedFamily`. -/
theorem read_unsupported_family_witness :
    SocketAddrAny.read [99, 0] 2 = .error .UnsupportedFamily :=
  read_unsupported_family.1 [99, 0] 2 (by decide) (by decide) (by decide)
    (by decide) (by decide) (by decide)

/-- C10: `SocketAddrAny::encode` zero-initializes the `sockaddr_storage`
before copying the variant's layout in, so the result fills the whole
storage and every byte beyond the variant's encoded length (the byte count
`write` reports) is zero. Since `encode` is a pure function, encoding the
same address twice trivially yields the identical storage; this theorem
shows no byte of it is left unspecified. -/
theorem encode_zero_padding (a : SocketAddrAny) (h : a.Valid) :
    a.encode.length = sizeof_sockaddr_storage ∧
    ∀ i, a.layoutLen ≤ i → a.encode.getD i 0 = 0 := by
  cases a with
  | V4 v =>
    simp only [SocketAddrAny.Valid, SocketAddrV4.Valid] at h
    obtain ⟨h1, -, -⟩ := h
    exact padded_write_spec (encode_sockaddr_v4 v) sizeof_sockaddr_in
      (by
        simp only [encode_sockaddr_v4, u16le, u16be, List.length_append,
          List.length_cons, List.length_nil, List.length_replicate, h1,
          sizeof_sockaddr_in]
        omega)
      (by norm_num [sizeof_sockaddr_in, sizeof_sockaddr_storage])
  | V6 v =>
    simp only [SocketAddrAny.Valid, SocketAddrV6.Valid] at h
    obtain ⟨h1, -, -, -, -⟩ := h
    exact padded_write_spec (encode_sockaddr_v6 v) sizeof_sockaddr_in6
      (by
        simp only [encode_sockaddr_v6, u16le, u16be, u32be, u32le,
          List.length_append, List.length_cons, List.length_nil, h1,
          sizeof_sockaddr_in6]
        omega)
      (by norm_num [sizeof_sockaddr_in6, sizeof_sockaddr_storage])
  | Unix u =>
    simp only [SocketAddrAny.Valid, SocketAddrUnix.Valid] at h
    obtain ⟨h1, -⟩ := h
    exact padded_write_spec u.unix u.addr_len
      (by
        simp only [SocketAddrUnix.unix, SocketAddrUnix.addr_len, u16le,
          List.length_append, List.length_cons, List.length_nil,
          List.length_replicate, sizeof_sa_family_t, sun_path_len]
        omega)
      (by
        simp only [SocketAddrUnix.addr_len, sizeof_sa_family_t,
          sizeof_sockaddr_storage]
        unfold sun_path_len at h1
        omega)
  | Xdp x =>
    exact padded_write_spec (encode_sockaddr_xdp x) sizeof_sockaddr_xdp
      (by
        simp only [encode_sockaddr_xdp, u16le, u32le, List.length_append,
          List.length_cons, List.length_nil, sizeof_sockaddr_xdp]
        omega)
      (by norm_num [sizeof_sockaddr_xdp, sizeof_sockaddr_storage])
  | Netlink n =>
    exact padded_write_spec (encode_sockaddr_nl n) sizeof_sockaddr_nl
      (by
        simp only [encode_sockaddr_nl, u16le, u32le, List.length_append,
          List.length_cons, List.length_nil, sizeof_sockaddr_nl]
        omega)
      (by norm_num [sizeof_sockaddr_nl, sizeof_sockaddr_storage])

/-- C10 witness: encoding `127.0.0.1:8080` fills the whole storage and
byte 100 (past the 16-byte `sockaddr_in` layout) is zero. -/
theorem encode_zero_padding_witness :
    (SocketAddrAny.V4 ⟨[127, 0, 0, 1], 8080⟩).encode.length
        = sizeof_sockaddr_storage ∧
    (SocketAddrAny.V4 ⟨[127, 0, 0, 1], 8080⟩).encode.getD 100 0 = 0 :=
  ⟨(encode_zero_padding (SocketAddrAny.V4 ⟨[127, 0, 0, 1], 8080⟩)
      (by decide)).1,
   (encode_zero_padding (SocketAddrAny.V4 ⟨[127, 0, 0, 1], 8080⟩)
      (by decide)).2 100 (by decide)⟩

/-- C1: for every supported unified address value (any variant, any valid
field contents), writing it into a maximal untyped storage buffer with
`SocketAddrAny::write` and reading the buffer back with the byte count
`write` returned yields `Ok` of a structurally equal address. -/
theorem write_read_roundtrip (a : SocketAddrAny) (h : a.Valid)
    (storage : List Nat) :
    SocketAddrAny.read (a.write storage).1 (a.write storage).2 = .ok a := by
  cases a with
  | V4 v =>
    obtain ⟨ip, p⟩ := v
    simp only [SocketAddrAny.Valid, SocketAddrV4.Valid] at h
    obtain ⟨h1, -, h3⟩ := h
    obtain ⟨i0, i1, i2, i3, rfl⟩ := list_length_four_exists ip h1
    show read_sockaddr
      (copy_nonoverlapping (encode_sockaddr_v4 ⟨[i0, i1, i2, i3], p⟩)
        storage sizeof_sockaddr_in) sizeof_sockaddr_in
      = .ok (.V4 ⟨[i0, i1, i2, i3], p⟩)
    rw [copy_full (encode_sockaddr_v4 ⟨[i0, i1, i2, i3], p⟩) storage
      sizeof_sockaddr_in rfl]
    have hshape : encode_sockaddr_v4 ⟨[i0, i1, i2, i3], p⟩
        ++ storage.drop sizeof_sockaddr_in
        = 2 :: 0 :: (p / 256 % 256) :: (p % 256) :: i0 :: i1 :: i2 :: i3 ::
          0 :: 0 :: 0 :: 0 :: 0 :: 0 :: 0 :: 0 ::
          storage.drop sizeof_sockaddr_in := rfl
    rw [hshape, read_sockaddr_v4_explicit,
      show be16 (p / 256 % 256) (p % 256) = p from by unfold be16; omega]
  | V6 v =>
    obtain ⟨ip, p, fl, sc⟩ := v
    simp only [SocketAddrAny.Valid, SocketAddrV6.Valid] at h
    obtain ⟨h1, -, h3, h4, h5⟩ := h
    obtain ⟨i0, i1, i2, i3, i4, i5, i6, i7, i8, i9, i10, i11, i12, i13,
      i14, i15, rfl⟩ := list_length_sixteen_exists ip h1
    show read_sockaddr
      (copy_nonoverlapping
        (encode_sockaddr_v6 ⟨[i0, i1, i2, i3, i4, i5, i6, i7, i8, i9, i10,
          i11, i12, i13, i14, i15], p, fl, sc⟩)
        storage sizeof_sockaddr_in6) sizeof_sockaddr_in6
      = .ok (.V6 ⟨[i0, i1, i2, i3, i4, i5, i6, i7, i8, i9, i10, i11, i12,
          i13, i14, i15], p, fl, sc⟩)
    rw [copy_full (encode_sockaddr_v6 ⟨[i0, i1, i2, i3, i4, i5, i6, i7, i8,
      i9, i10, i11, i12, i13, i14, i15], p, fl, sc⟩) storage
      sizeof_sockaddr_in6 rfl]
    have hshape : encode_sockaddr_v6 ⟨[i0, i1, i2, i3, i4, i5, i6, i7, i8,
        i9, i10, i11, i12, i13, i14, i15], p, fl, sc⟩
        ++ storage.drop sizeof_sockaddr_in6
        = 10 :: 0 :: (p / 256 % 256) :: (p % 256) ::
          (fl / 16777216 % 256) :: (fl / 65536 % 256) :: (fl / 256 % 256) ::
          (fl % 256) :: i0 :: i1 :: i2 :: i3 :: i4 :: i5 :: i6 :: i7 ::
          i8 :: i9 :: i10 :: i11 :: i12 :: i13 :: i14 :: i15 ::
          (sc % 256) :: (sc / 256 % 256) :: (sc / 65536 % 256) ::
          (sc / 16777216 % 256) ::
          storage.drop sizeof_sockaddr_in6 := rfl
    rw [hshape, read_sockaddr_v6_explicit,
      show be16 (p / 256 % 256) (p % 256) = p from by unfold be16; omega,
      show be32 (fl / 16777216 % 256) (fl / 65536 % 256) (fl / 256 % 256)
        (fl % 256) = fl from by unfold be32; omega,
      show le32 (sc % 256) (sc / 256 % 256) (sc / 65536 % 256)
        (sc / 16777216 % 256) = sc from by unfold le32; omega]
  | Unix u =>
    obtain ⟨path⟩ := u
    simp only [SocketAddrAny.Valid, SocketAddrUnix.Valid] at h
    obtain ⟨h1, -⟩ := h
    show read_sockaddr
      ((SocketAddrUnix.unix ⟨path⟩).take (SocketAddrUnix.addr_len ⟨path⟩)
        ++ storage.drop (SocketAddrUnix.addr_len ⟨path⟩))
      (SocketAddrUnix.addr_len ⟨path⟩)
      = .ok (.Unix ⟨path⟩)
    have htake : (SocketAddrUnix.unix ⟨path⟩).take
        (SocketAddrUnix.addr_len ⟨path⟩) = 1 :: 0 :: path := by
      show (([1, 0] : List Nat)
          ++ (path ++ List.replicate (sun_path_len - path.length) 0)).take
          (([1, 0] : List Nat).length + path.length) = 1 :: 0 :: path
      rw [List.take_append, List.take_left]
      rfl
    rw [htake]
    exact read_sockaddr_unix_explicit path
      (storage.drop (SocketAddrUnix.addr_len ⟨path⟩)) h1
  | Xdp x =>
    obtain ⟨fg, ix, q, fd⟩ := x
    simp only [SocketAddrAny.Valid, SocketAddrXdp.Valid] at h
    obtain ⟨h1, h2, h3, h4⟩ := h
    show read_sockaddr
      (copy_nonoverlapping (encode_sockaddr_xdp ⟨fg, ix, q, fd⟩)
        storage sizeof_sockaddr_xdp) sizeof_sockaddr_xdp
      = .ok (.Xdp ⟨fg, ix, q, fd⟩)
    rw [copy_full (encode_sockaddr_xdp ⟨fg, ix, q, fd⟩) storage
      sizeof_sockaddr_xdp rfl]
    have hshape : encode_sockaddr_xdp ⟨fg, ix, q, fd⟩
        ++ storage.drop sizeof_sockaddr_xdp
        = 44 :: 0 :: (fg % 256) :: (fg / 256 % 256) ::
          (ix % 256) :: (ix / 256 % 256) :: (ix / 65536 % 256) ::
          (ix / 16777216 % 256) ::
          (q % 256) :: (q / 256 % 256) :: (q / 65536 % 256) ::
          (q / 16777216 % 256) ::
          (fd % 256) :: (fd / 256 % 256) :: (fd / 65536 % 256) ::
          (fd / 16777216 % 256) ::
          storage.drop sizeof_sockaddr_xdp := rfl
    rw [hshape, read_sockaddr_xdp_explicit,
      show le16 (fg % 256) (fg / 256 % 256) = fg from by unfold le16; omega,
      show le32 (ix % 256) (ix / 256 % 256) (ix / 65536 % 256)
        (ix / 16777216 % 256) = ix from by unfold le32; omega,
      show le32 (q % 256) (q / 256 % 256) (q / 65536 % 256)
        (q / 16777216 % 256) = q from by unfold le32; omega,
      show le32 (fd % 256) (fd / 256 % 256) (fd / 65536 % 256)
        (fd / 16777216 % 256) = fd from by unfold le32; omega]
  | Netlink n =>
    obtain ⟨d, g⟩ := n
    simp only [SocketAddrAny.Valid, SocketAddrNetlink.Valid] at h
    obtain ⟨h1, h2⟩ := h
    show read_sockaddr
      (copy_nonoverlapping (encode_sockaddr_nl ⟨d, g⟩)
        storage sizeof_sockaddr_nl) sizeof_sockaddr_nl
      = .ok (.Netlink ⟨d, g⟩)
    rw [copy_full (encode_sockaddr_nl ⟨d, g⟩) storage
      sizeof_sockaddr_nl rfl]
    have hshape : encode_sockaddr_nl ⟨d, g⟩
        ++ storage.drop sizeof_sockaddr_nl
        = 16 :: 0 :: 0 :: 0 ::
          (d % 256) :: (d / 256 % 256) :: (d / 65536 % 256) ::
          (d / 16777216 % 256) ::
          (g % 256) :: (g / 256 % 256) :: (g / 65536 % 256) ::
          (g / 16777216 % 256) ::
          storage.drop sizeof_sockaddr_nl := rfl
    rw [hshape, read_sockaddr_nl_explicit,
      show le32 (d % 256) (d / 256 % 256) (d / 65536 % 256)
        (d / 16777216 % 256) = d from by unfold le32; omega,
      show le32 (g % 256) (g / 256 % 256) (g / 65536 % 256)
        (g / 16777216 % 256) = g from by unfold le32; omega]

/-- C1 witness: the round trip at `127.0.0.1:8080` through a zeroed
maximal storage buffer. -/
theorem write_read_roundtrip_witness :
    (SocketAddrAny.V4 ⟨[127, 0, 0, 1], 8080⟩).Valid ∧
    SocketAddrAny.read
        ((SocketAddrAny.V4 ⟨[127, 0, 0, 1], 8080⟩).write
          (List.replicate sizeof_sockaddr_storage 0)).1
        ((SocketAddrAny.V4 ⟨[127, 0, 0, 1], 8080⟩).write
          (List.replicate sizeof_sockaddr_storage 0)).2
      = .ok (SocketAddrAny.V4 ⟨[127, 0, 0, 1], 8080⟩) :=
  ⟨by decide,
   write_read_roundtrip (SocketAddrAny.V4 ⟨[127, 0, 0, 1], 8080⟩)
     (by decide) (List.replicate sizeof_sockaddr_storage 0)⟩

end Rustix
